import Mathlib

/-!
Verification of the sentiment-dashboard data pipeline of this repository.

The snapshot producer available in the sources is `getSampleData` in
`frontend/src/hooks/useSentimentData.js`; it is embedded below as a pure
function of the current time and of the stream of values returned by
`Math.random()`.  Timestamps are modelled as whole hours since an epoch
(all offsets in the code are whole hours or whole days, and the code runs
with a UTC clock); the ISO date string of a timestamp is modelled by its
UTC day number `t / 24`.  JavaScript numbers are modelled by exact
rationals, with `Number.prototype.toFixed(3)` modelled by rounding to the
nearest multiple of `1/1000` (`round3`).

The normalizer/deduplicator and the run pipeline of `scripts/scraper.py`
are not part of the sources; for the claims about them the corresponding
operations are modelled from the spec (see the doc comments marked
`Modelled from the spec:`).
-/

/-- The stream of values produced by successive calls to `Math.random()`. -/
def Tape : Type := ℕ → ℚ

/-- Advance the random stream by `k` consumed values. -/
def shift (r : Tape) (k : ℕ) : Tape := fun n => r (n + k)

/-- A tape is valid when every value lies in `[0, 1)`, as `Math.random()` guarantees. -/
def validTape (r : Tape) : Prop := ∀ n, 0 ≤ r n ∧ r n < 1

/-- `Math.floor(q * n)` used to pick a random index below `n`. -/
def randIndex (q : ℚ) (n : ℕ) : ℕ := (Int.floor (q * n)).toNat

/-- `parseFloat(x.toFixed(3))`: round to the nearest multiple of `1/1000`. -/
def round3 (q : ℚ) : ℚ := ((round (q * 1000) : ℤ) : ℚ) / 1000

/-- The 0.2-deadband threshold used everywhere a score becomes a label:
`s > 0.2 ? 'Positive' : s < -0.2 ? 'Negative' : 'Neutral'`. -/
def labelOf (s : ℚ) : String :=
  if 1/5 < s then "Positive" else if s < -(1/5) then "Negative" else "Neutral"

/-- `Math.max(-1, Math.min(1, x))`. -/
def clampQ (x : ℚ) : ℚ := max (-1) (min 1 x)

/-- The `sources` array of `getSampleData`. -/
def sourcesList : List String :=
  ["TechCrunch", "The Verge", "Bloomberg", "Reuters",
   "BBC News", "Ars Technica", "VentureBeat", "MIT Technology Review",
   "The Guardian", "New York Times", "Wired", "CNBC"]

/-- The `headlines` array of `getSampleData`: text together with base sentiment. -/
def headlinesList : List (String × ℚ) :=
  [("OpenAI Announces Major Breakthrough in AI Safety Research", 0.75),
   ("Google DeepMind Achieves New Milestone in Protein Folding", 0.82),
   ("Concerns Rise Over AI Job Displacement in Tech Industry", -0.65),
   ("ChatGPT Reaches 200 Million Weekly Users Milestone", 0.58),
   ("EU Passes Landmark AI Regulation Bill", 0.12),
   ("Microsoft Integrates AI Deeply Into Windows", 0.45),
   ("AI Startup Raises 500M in Series C Funding", 0.62),
   ("Experts Warn of AI-Generated Misinformation Risks", -0.78),
   ("New AI Model Achieves Human-Level Performance on Tests", 0.71),
   ("Tech Giants Face Scrutiny Over AI Training Data", -0.42),
   ("AI-Powered Drug Discovery Shows Promising Results", 0.85),
   ("Privacy Concerns Mount as AI Surveillance Expands", -0.68),
   ("Anthropic Releases Claude 3 with Enhanced Capabilities", 0.55),
   ("AI Copyright Lawsuit Takes Unexpected Turn", -0.35),
   ("Meta Unveils New AI-Powered Social Features", 0.38),
   ("AI Bias Study Reveals Persistent Discrimination Issues", -0.72),
   ("Autonomous Vehicles Make Safety Breakthrough", 0.68),
   ("China Announces Major AI Investment Initiative", 0.25),
   ("AI Art Generator Sparks Creative Industry Debate", -0.18),
   ("Healthcare AI Tools Receive FDA Approval", 0.79)]

/-- One classified headline of the output schema. `published` is in hours. -/
structure Article where
  headline : String
  source : String
  link : String
  published : ℕ
  sentiment_score : ℚ
  sentiment_label : String
  confidence : ℚ
deriving DecidableEq, Repr, Inhabited

/-- One per-day aggregate of the output schema. `date` is a UTC day number.
The JavaScript object is created without `moving_avg` and gains it in a
second pass; the field is initialised to `0` and overwritten by that pass. -/
structure DailyStat where
  date : ℕ
  avg_sentiment : ℚ
  article_count : ℕ
  positive_count : ℕ
  negative_count : ℕ
  neutral_count : ℕ
  moving_avg : ℚ
deriving DecidableEq, Repr, Inhabited

/-- One per-source aggregate of the output schema. -/
structure SourceStat where
  source : String
  avg_sentiment : ℚ
  article_count : ℕ
  sentiment_label : String
deriving DecidableEq, Repr, Inhabited

/-- The complete output of one run, in the fixed output schema.
`last_updated` is in hours, like `Article.published`. -/
structure Snapshot where
  last_updated : ℕ
  total_articles : ℕ
  overall_sentiment : ℚ
  overall_label : String
  daily_stats : List DailyStat
  source_stats : List SourceStat
  articles : List Article
deriving DecidableEq, Repr, Inhabited

/-- UTC day number of the timestamp `t` (hours). -/
def pubDay (a : Article) : ℕ := a.published / 24

/-- The date string `dateStr` of the day-`day` iteration, as a UTC day number. -/
def dateOf (now day : ℕ) : ℕ := (now - day * 24) / 24

/-- One iteration of the inner article loop of `getSampleData`: consumes four
random values (headline index, source index, variation, confidence) and yields
the article together with its pre-rounding sentiment. -/
def genArticle (now day i : ℕ) (r : Tape) : Article × ℚ :=
  let hd := headlinesList.getD (randIndex (r 0) 20) ("", 0)
  let sentiment := clampQ (hd.2 + (r 2 - 1/2) * (3/10))
  ({ headline := hd.1,
     source := sourcesList.getD (randIndex (r 1) 12) "",
     link := "https://example.com/article-" ++ toString day ++ "-" ++ toString i,
     published := now - day * 24 - i,
     sentiment_score := round3 sentiment,
     sentiment_label := labelOf sentiment,
     confidence := round3 (7/10 + r 3 * (1/4)) }, sentiment)

/-- The inner loop: generate `n` articles for one day starting at index `i`,
returning them in order together with the accumulated `dayTotal`. -/
def genBatch (now day : ℕ) : ℕ → ℕ → Tape → List Article × ℚ
  | _, 0, _ => ([], 0)
  | i, n + 1, r =>
    let p := genArticle now day i r
    let rest := genBatch now day (i + 1) n (shift r 4)
    (p.1 :: rest.1, p.2 + rest.2)

/-- The `dailyStats.push({...})` record for one day: counts are obtained by
filtering the articles accumulated so far by date-string prefix, exactly as
the code filters on `a.published.startsWith(dateStr)`. -/
def mkStat (now day : ℕ) (arts : List Article) (total : ℚ) (n : ℕ) : DailyStat :=
  { date := dateOf now day,
    avg_sentiment := round3 (total / n),
    article_count := n,
    positive_count :=
      (arts.filter fun a => decide (pubDay a = dateOf now day ∧ 1/5 < a.sentiment_score)).length,
    negative_count :=
      (arts.filter fun a => decide (pubDay a = dateOf now day ∧ a.sentiment_score < -(1/5))).length,
    neutral_count :=
      (arts.filter fun a => decide (pubDay a = dateOf now day ∧ |a.sentiment_score| ≤ 1/5)).length,
    moving_avg := 0 }

/-- The outer day loop (`for (let day = 0; day < 14; day++)`), threading the
random stream: one value for the article count, then four per article. -/
def dayLoop (now : ℕ) : ℕ → ℕ → List Article → List DailyStat → Tape →
    List Article × List DailyStat
  | _, 0, arts, stats, _ => (arts, stats)
  | day, fuel + 1, arts, stats, r =>
    let n := 4 + randIndex (r 0) 5
    let b := genBatch now day 0 n (shift r 1)
    dayLoop now (day + 1) fuel (arts ++ b.1)
      (stats ++ [mkStat now day (arts ++ b.1) b.2 n]) (shift r (1 + 4 * n))

/-- The article list accumulated by the day loop, before the final sort. -/
def articlesRaw (now : ℕ) (r : Tape) : List Article := (dayLoop now 0 14 [] [] r).1

/-- The daily-stat list produced by the day loop, newest day first. -/
def dailyRaw (now : ℕ) (r : Tape) : List DailyStat := (dayLoop now 0 14 [] [] r).2

/-- The 7-day moving-average pass: for each index `i` set `moving_avg` to the
rounded mean of `avg_sentiment` over `dailyStats.slice(Math.max(0, i - 6), i + 1)`.
Natural subtraction makes `i - 6` exactly `max(0, i - 6)`. -/
def addMovingAvg (stats : List DailyStat) : List DailyStat :=
  (List.range stats.length).map fun i =>
    let w := (stats.drop (i - 6)).take (i + 1 - (i - 6))
    { stats.getD i default with
      moving_avg := round3 ((w.map DailyStat.avg_sentiment).sum / w.length) }

/-- One step of building `sourceMap`: a JavaScript object keyed by source keeps
insertion order; scores are appended in article order. -/
def addToSourceMap : List (String × List ℚ) → Article → List (String × List ℚ)
  | [], a => [(a.source, [a.sentiment_score])]
  | (s, scs) :: rest, a =>
    if s = a.source then (s, scs ++ [a.sentiment_score]) :: rest
    else (s, scs) :: addToSourceMap rest a

/-- `sourceMap` built over the article list in order. -/
def sourceMap (arts : List Article) : List (String × List ℚ) :=
  arts.foldl addToSourceMap []

/-- One `source_stats` entry from a `sourceMap` entry: the stored average is
rounded, the label is derived from the unrounded mean. -/
def mkSourceStat (p : String × List ℚ) : SourceStat :=
  { source := p.1,
    avg_sentiment := round3 (p.2.sum / p.2.length),
    article_count := p.2.length,
    sentiment_label := labelOf (p.2.sum / p.2.length) }

/-- The `source_stats` list in `sourceMap` insertion order, before sorting. -/
def sourceStatsRaw (arts : List Article) : List SourceStat :=
  (sourceMap arts).map mkSourceStat

/-- Insert into a list sorted by `key` descending, after all elements whose key
is at least `key x`: the placement a stable sort gives a later element. -/
def insertDesc {α : Type} (key : α → ℤ) (x : α) : List α → List α
  | [] => [x]
  | y :: ys => if key y < key x then x :: y :: ys else y :: insertDesc key x ys

/-- Stable sort by `key` descending, modelling `Array.prototype.sort` with the
comparator `(a, b) => key(b) - key(a)` (the ECMAScript sort is stable). -/
def sortDesc {α : Type} (key : α → ℤ) (l : List α) : List α :=
  l.foldl (fun acc x => insertDesc key x acc) []

/-- Mean of the stored sentiment scores of a list of articles. -/
def meanScore (l : List Article) : ℚ :=
  (l.map Article.sentiment_score).sum / l.length

/-- The whole of `getSampleData`, as a function of the clock and the random
stream. -/
def getSampleData (now : ℕ) (r : Tape) : Snapshot :=
  { last_updated := now,
    total_articles := (articlesRaw now r).length,
    overall_sentiment := round3 (meanScore (articlesRaw now r)),
    overall_label := labelOf (meanScore (articlesRaw now r)),
    daily_stats := addMovingAvg (dailyRaw now r).reverse,
    source_stats :=
      sortDesc (fun s => (s.article_count : ℤ)) (sourceStatsRaw (articlesRaw now r)),
    articles := sortDesc (fun a => (a.published : ℤ)) (articlesRaw now r) }

/-! ## Normalizer, deduplicator and run pipeline

`scripts/scraper.py` is not part of the sources; the operations below are
modelled from the spec (§4.1–§4.4, §7).  String normalization and ordering
are implemented over character lists so that concrete runs reduce in the
kernel. -/

/-- A raw feed item as delivered by the Source Adapter (§6): headline text,
source label, link and publish time (hours). -/
structure RawItem where
  headline : String
  source : String
  link : String
  published : ℕ
deriving DecidableEq, Repr, Inhabited

/-- Split a character list into maximal whitespace-free words. -/
def splitWords : List Char → List Char → List (List Char)
  | [], [] => []
  | [], cur => [cur.reverse]
  | c :: cs, cur =>
    if c.isWhitespace then
      if cur.isEmpty then splitWords cs [] else cur.reverse :: splitWords cs []
    else splitWords cs (c :: cur)

/-- Join words with single spaces. -/
def joinWords : List (List Char) → List Char
  | [] => []
  | [w] => w
  | w :: ws => w ++ ' ' :: joinWords ws

/-- Modelled from the spec: §4.1 normalization of a headline — trim
surrounding whitespace and collapse internal whitespace runs to one space. -/
def normalizeHeadline (s : String) : String := ⟨joinWords (splitWords s.data [])⟩

/-- Lexicographic order on strings by character code, used for the
"source name ascending" tie-break of §3. -/
def charListLt : List Char → List Char → Bool
  | [], [] => false
  | [], _ :: _ => true
  | _ :: _, [] => false
  | a :: as, b :: bs =>
    if a.toNat < b.toNat then true
    else if b.toNat < a.toNat then false
    else charListLt as bs

/-- String order by character code (see `charListLt`). -/
def strLt (a b : String) : Bool := charListLt a.data b.data

/-- The deduplication key of §4.1: `(normalized_headline, source)`. -/
def dedupKey (it : RawItem) : String × String := (normalizeHeadline it.headline, it.source)

/-- Modelled from the spec: §4.1 deduplication — an item matching an
already-seen `(normalized_headline, source)` key OR an already-seen `link`
is dropped; first-seen (in feed fetch order) wins. -/
def dedupGo : List RawItem → List (String × String) → List String → List RawItem
  | [], _, _ => []
  | it :: rest, seenKeys, seenLinks =>
    if dedupKey it ∈ seenKeys ∨ it.link ∈ seenLinks then
      dedupGo rest seenKeys seenLinks
    else
      it :: dedupGo rest (dedupKey it :: seenKeys) (it.link :: seenLinks)

/-- Deduplicate a raw item sequence (see `dedupGo`). -/
def dedupItems (items : List RawItem) : List RawItem := dedupGo items [] []

/-- The classifier's raw judgment for one text (§6): probability of the
positive class and reported confidence. -/
structure ClassifierOut where
  prob : ℚ
  confidence : ℚ
deriving DecidableEq, Repr, Inhabited

/-- Modelled from the spec: §4.1 retention — items whose `published` is older
than 14 days (336 hours) before now are discarded. -/
def retentionFilter (now : ℕ) (items : List RawItem) : List RawItem :=
  items.filter fun it => decide (now - 336 ≤ it.published)

/-- Modelled from the spec: §4.2 score normalization — `score = 2p - 1`,
clamped to `[-1, 1]`. -/
def scoreOfProb (p : ℚ) : ℚ := clampQ (2 * p - 1)

/-- Modelled from the spec: §4.2 — classify each shell with the external
capability; items whose classification fails are dropped; `confidence`
passes through. -/
def classifyAll (classify : String → Option ClassifierOut) (items : List RawItem) :
    List Article :=
  items.foldr (fun it acc =>
    match classify (normalizeHeadline it.headline) with
    | some out =>
      { headline := normalizeHeadline it.headline,
        source := it.source,
        link := it.link,
        published := it.published,
        sentiment_score := round3 (scoreOfProb out.prob),
        sentiment_label := labelOf (scoreOfProb out.prob),
        confidence := out.confidence } :: acc
    | none => acc) []

/-- Articles of one UTC calendar date. -/
def dailyBucket (arts : List Article) (d : ℕ) : List Article :=
  arts.filter fun a => decide (pubDay a = d)

/-- Modelled from the spec: §4.3 daily grouping — mean score and the three
label counts by the §4.2 threshold over the date's articles. -/
def mkDailySpec (arts : List Article) (d : ℕ) : DailyStat :=
  { date := d,
    avg_sentiment := round3 (meanScore (dailyBucket arts d)),
    article_count := (dailyBucket arts d).length,
    positive_count :=
      ((dailyBucket arts d).filter fun a => decide (1/5 < a.sentiment_score)).length,
    negative_count :=
      ((dailyBucket arts d).filter fun a => decide (a.sentiment_score < -(1/5))).length,
    neutral_count :=
      ((dailyBucket arts d).filter fun a => decide (|a.sentiment_score| ≤ 1/5)).length,
    moving_avg := 0 }

/-- Modelled from the spec: §4.3 — DailyStat entries for the dates present,
in ascending date order, then the trailing moving-average pass. -/
def dailyStatsSpec (arts : List Article) : List DailyStat :=
  addMovingAvg
    ((sortDesc (fun d : ℕ => -(d : ℤ)) ((arts.map pubDay).dedup)).map (mkDailySpec arts))

/-- Scores of one source's articles, in sequence order. -/
def sourceBucket (arts : List Article) (s : String) : List ℚ :=
  (arts.filter fun a => decide (a.source = s)).map Article.sentiment_score

/-- Modelled from the spec: §4.3 source grouping — mean, count and the
threshold label of the source's mean score. -/
def mkSourceSpec (arts : List Article) (s : String) : SourceStat :=
  { source := s,
    avg_sentiment := round3 ((sourceBucket arts s).sum / (sourceBucket arts s).length),
    article_count := (sourceBucket arts s).length,
    sentiment_label := labelOf ((sourceBucket arts s).sum / (sourceBucket arts s).length) }

/-- Insertion respecting the §3 SourceStat order: `article_count` descending,
ties by source name ascending. -/
def insertSourceSpec (x : SourceStat) : List SourceStat → List SourceStat
  | [] => [x]
  | y :: ys =>
    if y.article_count < x.article_count ∨
        (y.article_count = x.article_count ∧ strLt x.source y.source = true) then
      x :: y :: ys
    else y :: insertSourceSpec x ys

/-- Modelled from the spec: §4.3 — SourceStat entries sorted per the §3
invariant. -/
def sourceStatsSpec (arts : List Article) : List SourceStat :=
  (((arts.map Article.source).dedup).map (mkSourceSpec arts)).foldl
    (fun acc x => insertSourceSpec x acc) []

/-- Modelled from the spec: §4.3/§4.4 — assemble the Snapshot record from the
classified article set; `last_updated` records the run time. -/
def assembleSnapshot (now : ℕ) (arts : List Article) : Snapshot :=
  { last_updated := now,
    total_articles := arts.length,
    overall_sentiment := round3 (meanScore arts),
    overall_label := labelOf (meanScore arts),
    daily_stats := dailyStatsSpec arts,
    source_stats := sourceStatsSpec arts,
    articles := sortDesc (fun a => (a.published : ℤ)) arts }

/-- Modelled from the spec: §2/§7 — one full run: dedup, retention, classify,
aggregate, assemble; zero surviving articles is a fatal run failure and no
Snapshot is produced. -/
def runPipeline (now : ℕ) (raw : List RawItem)
    (classify : String → Option ClassifierOut) : Option Snapshot :=
  let arts := classifyAll classify (retentionFilter now (dedupItems raw))
  if arts.isEmpty then none else some (assembleSnapshot now arts)

/-- Replace `last_updated` by a fixed value, to compare snapshots on every
other field. -/
def scrubTime (s : Snapshot) : Snapshot := { s with last_updated := 0 }

/-- Two run results agree on every field except `last_updated`. -/
def runsAgree (x y : Option Snapshot) : Prop :=
  x.map scrubTime = y.map scrubTime

instance (x y : Option Snapshot) : Decidable (runsAgree x y) :=
  inferInstanceAs (Decidable (x.map scrubTime = y.map scrubTime))

/-! ## The `useSentimentData` hook -/

/-- The state the hook settles into once the fetch completes. -/
structure HookState where
  data : Option Snapshot
  loading : Bool
  error : Option String
deriving DecidableEq, Repr, Inhabited

/-- The `useSentimentData` hook after its effect runs: a successful fetch of
`data.json` stores the parsed snapshot and clears the error; any failure
(network error, non-OK response, parse error) stores the error message and
falls back to the generated sample data.  `loading` is `false` either way. -/
def useSentimentData (fetched : Except String Snapshot) (now : ℕ) (r : Tape) : HookState :=
  match fetched with
  | Except.ok d => { data := some d, loading := false, error := none }
  | Except.error e =>
    { data := some (getSampleData now r), loading := false, error := some e }

/-! ## Concrete inputs for witnesses and counterexamples -/

/-- The all-zero random tape. -/
def ztape : Tape := fun _ => 0

/-- Tape whose first article has base sentiment `0.12` and variation
`+0.0804`, so its pre-rounding sentiment is `0.2004`. -/
def c1Tape : Tape := fun n => if n = 1 then 1/5 else if n = 3 then 96/125 else 0

/-- Tape whose first two articles have pre-rounding sentiments `0.2004` and
exactly `0.2`: equal stored scores, different labels. -/
def c5Tape : Tape := fun n =>
  if n = 1 then 1/5 else if n = 3 then 96/125 else
  if n = 5 then 1/5 else if n = 7 then 23/30 else 0

/-- Tape making day 12 (daily index 1) have average sentiment `0.601`, so the
two-entry moving-average window mean `0.6005` rounds to `0.601`. -/
def c2Tape : Tape := fun n => if n = 207 then 1/75 else 0

/-- Tape whose first two articles come from `The Verge` and `Bloomberg`: a
tie at one article each, first seen in descending name order. -/
def c6Tape : Tape := fun n => if n = 2 then 1/12 else if n = 6 then 1/6 else 0

/-- Two distinct raw items, 100 hours apart, for the pipeline theorems. -/
def c8Raw : List RawItem :=
  [{ headline := "Item A", source := "S", link := "https://example.com/a", published := 1000 },
   { headline := "Item B", source := "S", link := "https://example.com/b", published := 900 }]

/-- A classifier that always answers with positive probability `0.9`. -/
def c8Classify : String → Option ClassifierOut := fun _ => some { prob := 9/10, confidence := 9/10 }

/-! ## Numeric facts about `round3` and `labelOf` -/

set_option maxRecDepth 10000

theorem abs_round3_sub (q : ℚ) : |round3 q - q| ≤ 1/2000 := by
  have h : |((round (q * 1000) : ℤ) : ℚ) - q * 1000| ≤ 1/2 := by
    rw [abs_sub_comm]; exact abs_sub_round (q * 1000)
  have e : round3 q - q = (((round (q * 1000) : ℤ) : ℚ) - q * 1000) / 1000 := by
    unfold round3; ring
  rw [e, abs_div]
  rw [show |(1000 : ℚ)| = 1000 by norm_num]
  linarith

theorem lt_of_round3_gt {s : ℚ} (h : 1/5 < round3 s) : 1/5 < s := by
  have hb := abs_le.mp (abs_round3_sub s)
  have hm : (200 : ℚ) < ((round (s * 1000) : ℤ) : ℚ) := by
    unfold round3 at h; linarith
  have hmz : (200 : ℤ) < round (s * 1000) := by exact_mod_cast hm
  have hmz1 : (201 : ℤ) ≤ round (s * 1000) := by omega
  have hm1 : (201 : ℚ) ≤ ((round (s * 1000) : ℤ) : ℚ) := by exact_mod_cast hmz1
  have h2 : (201 : ℚ)/1000 ≤ round3 s := by unfold round3; linarith
  linarith [hb.2]

theorem lt_of_round3_lt {s : ℚ} (h : round3 s < -(1/5)) : s < -(1/5) := by
  have hb := abs_le.mp (abs_round3_sub s)
  have hm : ((round (s * 1000) : ℤ) : ℚ) < -200 := by
    unfold round3 at h; linarith
  have hmz : round (s * 1000) < -200 := by exact_mod_cast hm
  have hmz1 : round (s * 1000) ≤ -201 := by omega
  have hm1 : ((round (s * 1000) : ℤ) : ℚ) ≤ -201 := by exact_mod_cast hmz1
  have h2 : round3 s ≤ -((201 : ℚ)/1000) := by unfold round3; linarith
  linarith [hb.1]

theorem between_of_round3_between {s : ℚ} (h1 : -(1/5) < round3 s) (h2 : round3 s < 1/5) :
    -(1/5) < s ∧ s < 1/5 := by
  have hb := abs_le.mp (abs_round3_sub s)
  have hm1 : -200 < ((round (s * 1000) : ℤ) : ℚ) := by unfold round3 at h1; linarith
  have hm2 : ((round (s * 1000) : ℤ) : ℚ) < 200 := by unfold round3 at h2; linarith
  have hz1 : (-199 : ℤ) ≤ round (s * 1000) := by
    have : (-200 : ℤ) < round (s * 1000) := by exact_mod_cast hm1
    omega
  have hz2 : round (s * 1000) ≤ 199 := by
    have : round (s * 1000) < (200 : ℤ) := by exact_mod_cast hm2
    omega
  have hq1 : (-199 : ℚ) ≤ ((round (s * 1000) : ℤ) : ℚ) := by exact_mod_cast hz1
  have hq2 : ((round (s * 1000) : ℤ) : ℚ) ≤ 199 := by exact_mod_cast hz2
  have e1 : -((199 : ℚ)/1000) ≤ round3 s := by unfold round3; linarith
  have e2 : round3 s ≤ (199 : ℚ)/1000 := by unfold round3; linarith
  constructor
  · linarith [hb.1]
  · linarith [hb.2]

theorem gt_of_round3_eq_fifth {s : ℚ} (h : round3 s = 1/5) : -(1/5) < s := by
  have hb := abs_le.mp (abs_round3_sub s)
  rw [h] at hb
  linarith [hb.2]

theorem lt_of_round3_eq_neg_fifth {s : ℚ} (h : round3 s = -(1/5)) : s < 1/5 := by
  have hb := abs_le.mp (abs_round3_sub s)
  rw [h] at hb
  linarith [hb.1]

theorem labelOf_pos {s : ℚ} (h : 1/5 < s) : labelOf s = "Positive" := by
  unfold labelOf; rw [if_pos h]

theorem labelOf_neg {s : ℚ} (h : s < -(1/5)) : labelOf s = "Negative" := by
  unfold labelOf
  rw [if_neg (by linarith), if_pos h]

theorem labelOf_neu {s : ℚ} (h1 : ¬ 1/5 < s) (h2 : ¬ s < -(1/5)) : labelOf s = "Neutral" := by
  unfold labelOf; rw [if_neg h1, if_neg h2]

/-! ## The stable descending insertion sort -/

theorem insertDesc_perm {α : Type} (key : α → ℤ) (x : α) (l : List α) :
    (insertDesc key x l).Perm (x :: l) := by
  induction l with
  | nil => exact List.Perm.refl _
  | cons y ys ih =>
    by_cases h : key y < key x
    · rw [insertDesc, if_pos h]
    · rw [insertDesc, if_neg h]
      exact (ih.cons y).trans (List.Perm.swap x y ys)

theorem sortDesc_go_perm {α : Type} (key : α → ℤ) :
    ∀ (l acc : List α), (l.foldl (fun acc x => insertDesc key x acc) acc).Perm (acc ++ l)
  | [], acc => by simp
  | x :: l, acc => by
    simp only [List.foldl_cons]
    refine (sortDesc_go_perm key l (insertDesc key x acc)).trans ?_
    refine (List.Perm.append_right l (insertDesc_perm key x acc)).trans ?_
    exact List.perm_middle.symm

theorem sortDesc_perm {α : Type} (key : α → ℤ) (l : List α) :
    (sortDesc key l).Perm l := by
  simpa [sortDesc] using sortDesc_go_perm key l []

theorem mem_insertDesc {α : Type} {key : α → ℤ} {x a : α} {l : List α} :
    a ∈ insertDesc key x l ↔ a = x ∨ a ∈ l := by
  rw [(insertDesc_perm key x l).mem_iff]
  simp

theorem insertDesc_sorted {α : Type} {key : α → ℤ} {x : α} {l : List α}
    (h : l.Pairwise fun a b => key b ≤ key a) :
    (insertDesc key x l).Pairwise fun a b => key b ≤ key a := by
  induction l with
  | nil => simp [insertDesc]
  | cons y ys ih =>
    rcases List.pairwise_cons.mp h with ⟨hy, hys⟩
    by_cases hlt : key y < key x
    · rw [insertDesc, if_pos hlt]
      refine List.pairwise_cons.mpr ⟨?_, h⟩
      intro z hz
      rcases List.mem_cons.mp hz with rfl | hz
      · exact le_of_lt hlt
      · exact le_trans (hy z hz) (le_of_lt hlt)
    · rw [insertDesc, if_neg hlt]
      refine List.pairwise_cons.mpr ⟨?_, ih hys⟩
      intro z hz
      rcases mem_insertDesc.mp hz with rfl | hz
      · exact le_of_not_lt hlt
      · exact hy z hz

theorem sortDesc_go_sorted {α : Type} (key : α → ℤ) :
    ∀ (l acc : List α), (acc.Pairwise fun a b => key b ≤ key a) →
      (l.foldl (fun acc x => insertDesc key x acc) acc).Pairwise fun a b => key b ≤ key a
  | [], _, h => h
  | x :: l, acc, h => by
    simp only [List.foldl_cons]
    exact sortDesc_go_sorted key l _ (insertDesc_sorted h)

theorem sortDesc_sorted {α : Type} (key : α → ℤ) (l : List α) :
    (sortDesc key l).Pairwise fun a b => key b ≤ key a :=
  sortDesc_go_sorted key l [] List.Pairwise.nil

theorem insertDesc_filter_of_eq {α : Type} {key : α → ℤ} {x : α} {c : ℤ} {l : List α}
    (hx : key x = c) (h : l.Pairwise fun a b => key b ≤ key a) :
    (insertDesc key x l).filter (fun a => decide (key a = c)) =
      l.filter (fun a => decide (key a = c)) ++ [x] := by
  induction l with
  | nil => simp [insertDesc, List.filter_cons, hx]
  | cons y ys ih =>
    rcases List.pairwise_cons.mp h with ⟨hy, hys⟩
    by_cases hlt : key y < key x
    · rw [insertDesc, if_pos hlt]
      have hyc : ¬ key y = c := by omega
      have hysnil : ys.filter (fun a => decide (key a = c)) = [] := by
        rw [List.filter_eq_nil_iff]
        intro a ha
        have := hy a ha
        simp only [decide_eq_true_eq]
        omega
      simp [List.filter_cons, hx, hyc, hysnil]
    · rw [insertDesc, if_neg hlt]
      rw [List.filter_cons, List.filter_cons]
      by_cases hyc : key y = c
      · simp only [hyc, decide_True, if_pos]
        rw [ih hys]
        simp
      · simp only [hyc, decide_False]
        rw [if_neg (by simp), if_neg (by simp)]
        exact ih hys

theorem insertDesc_filter_of_ne {α : Type} {key : α → ℤ} {x : α} {c : ℤ} {l : List α}
    (hx : ¬ key x = c) :
    (insertDesc key x l).filter (fun a => decide (key a = c)) =
      l.filter (fun a => decide (key a = c)) := by
  induction l with
  | nil => simp [insertDesc, List.filter_cons, hx]
  | cons y ys ih =>
    by_cases hlt : key y < key x
    · rw [insertDesc, if_pos hlt]
      simp [List.filter_cons, hx]
    · rw [insertDesc, if_neg hlt]
      rw [List.filter_cons, List.filter_cons, ih]

theorem sortDesc_go_filter {α : Type} (key : α → ℤ) (c : ℤ) :
    ∀ (l acc : List α), (acc.Pairwise fun a b => key b ≤ key a) →
      (l.foldl (fun acc x => insertDesc key x acc) acc).filter (fun a => decide (key a = c)) =
        acc.filter (fun a => decide (key a = c)) ++ l.filter (fun a => decide (key a = c))
  | [], _, _ => by simp
  | x :: l, acc, h => by
    simp only [List.foldl_cons]
    rw [sortDesc_go_filter key c l _ (insertDesc_sorted h)]
    by_cases hx : key x = c
    · rw [insertDesc_filter_of_eq hx h, List.filter_cons, if_pos (by simp [hx])]
      simp
    · rw [insertDesc_filter_of_ne hx, List.filter_cons, if_neg (by simp [hx])]

theorem sortDesc_filter {α : Type} (key : α → ℤ) (c : ℤ) (l : List α) :
    (sortDesc key l).filter (fun a => decide (key a = c)) =
      l.filter (fun a => decide (key a = c)) := by
  simpa [sortDesc] using sortDesc_go_filter key c l [] List.Pairwise.nil

/-! ## Facts about the generated batches and the day loop -/

theorem genBatch_length (now day : ℕ) :
    ∀ (n i : ℕ) (r : Tape), (genBatch now day i n r).1.length = n
  | 0, _, _ => rfl
  | n + 1, i, r => by
    simp only [genBatch, List.length_cons]
    rw [genBatch_length now day n (i + 1) (shift r 4)]

theorem genBatch_mem (now day : ℕ) :
    ∀ (n i : ℕ) (r : Tape) (a : Article), a ∈ (genBatch now day i n r).1 →
      ∃ j s, i ≤ j ∧ j < i + n ∧ a.published = now - day * 24 - j ∧
        a.sentiment_score = round3 s ∧ a.sentiment_label = labelOf s
  | 0, i, r, a, ha => by simp [genBatch] at ha
  | n + 1, i, r, a, ha => by
    simp only [genBatch, List.mem_cons] at ha
    rcases ha with rfl | ha
    · exact ⟨i, (genArticle now day i r).2, le_refl i, by omega, rfl, rfl, rfl⟩
    · obtain ⟨j, s, h1, h2, h3, h4, h5⟩ := genBatch_mem now day n (i + 1) (shift r 4) a ha
      exact ⟨j, s, by omega, by omega, h3, h4, h5⟩

theorem genBatch_sum (now day : ℕ) :
    ∀ (n i : ℕ) (r : Tape),
      |((genBatch now day i n r).1.map Article.sentiment_score).sum -
          (genBatch now day i n r).2| ≤ n * (1/2000)
  | 0, _, _ => by simp [genBatch]
  | n + 1, i, r => by
    have ih := genBatch_sum now day n (i + 1) (shift r 4)
    have hh := abs_round3_sub (genArticle now day i r).2
    simp only [genBatch, List.map_cons, List.sum_cons]
    have hsc : (genArticle now day i r).1.sentiment_score =
        round3 (genArticle now day i r).2 := rfl
    rw [hsc]
    have e : round3 (genArticle now day i r).2 +
          ((genBatch now day (i + 1) n (shift r 4)).1.map Article.sentiment_score).sum -
          ((genArticle now day i r).2 + (genBatch now day (i + 1) n (shift r 4)).2) =
        (round3 (genArticle now day i r).2 - (genArticle now day i r).2) +
          (((genBatch now day (i + 1) n (shift r 4)).1.map Article.sentiment_score).sum -
            (genBatch now day (i + 1) n (shift r 4)).2) := by ring
    rw [e]
    have htri := abs_add
      (round3 (genArticle now day i r).2 - (genArticle now day i r).2)
      (((genBatch now day (i + 1) n (shift r 4)).1.map Article.sentiment_score).sum -
        (genBatch now day (i + 1) n (shift r 4)).2)
    have hcast : ((n + 1 : ℕ) : ℚ) = (n : ℚ) + 1 := by push_cast; ring
    rw [hcast]
    linarith

theorem dayLoop_mem_wf (now : ℕ) :
    ∀ (fuel day : ℕ) (arts : List Article) (stats : List DailyStat) (r : Tape) (a : Article),
      a ∈ (dayLoop now day fuel arts stats r).1 →
      a ∈ arts ∨ ∃ s, a.sentiment_score = round3 s ∧ a.sentiment_label = labelOf s
  | 0, _, _, _, _, _, ha => Or.inl ha
  | fuel + 1, day, arts, stats, r, a, ha => by
    simp only [dayLoop] at ha
    rcases dayLoop_mem_wf now fuel (day + 1) _ _ _ a ha with h | h
    · rcases List.mem_append.mp h with h | h
      · exact Or.inl h
      · obtain ⟨j, s, _, _, _, h4, h5⟩ := genBatch_mem now day _ _ _ a h
        exact Or.inr ⟨s, h4, h5⟩
    · exact Or.inr h

theorem getSampleData_articles (now : ℕ) (r : Tape) :
    (getSampleData now r).articles =
      sortDesc (fun a : Article => (a.published : ℤ)) (articlesRaw now r) := by
  simp only [getSampleData]

theorem getSampleData_daily (now : ℕ) (r : Tape) :
    (getSampleData now r).daily_stats = addMovingAvg (dailyRaw now r).reverse := by
  simp only [getSampleData]

theorem getSampleData_sources (now : ℕ) (r : Tape) :
    (getSampleData now r).source_stats =
      sortDesc (fun s : SourceStat => (s.article_count : ℤ))
        (sourceStatsRaw (articlesRaw now r)) := by
  simp only [getSampleData]

theorem getSampleData_overall (now : ℕ) (r : Tape) :
    (getSampleData now r).overall_sentiment = round3 (meanScore (articlesRaw now r)) := by
  simp only [getSampleData]

theorem getSampleData_overall_label (now : ℕ) (r : Tape) :
    (getSampleData now r).overall_label = labelOf (meanScore (articlesRaw now r)) := by
  simp only [getSampleData]

theorem articlesRaw_def (now : ℕ) (r : Tape) :
    articlesRaw now r = (dayLoop now 0 14 [] [] r).1 := by
  simp only [articlesRaw]

theorem dailyRaw_def (now : ℕ) (r : Tape) :
    dailyRaw now r = (dayLoop now 0 14 [] [] r).2 := by
  simp only [dailyRaw]

theorem mem_articlesRaw_of_mem_articles {now : ℕ} {r : Tape} {a : Article}
    (ha : a ∈ (getSampleData now r).articles) : a ∈ articlesRaw now r := by
  rw [getSampleData_articles] at ha
  exact (sortDesc_perm (fun a : Article => (a.published : ℤ)) (articlesRaw now r)).mem_iff.mp ha

theorem articles_mem_wf {now : ℕ} {r : Tape} {a : Article}
    (ha : a ∈ (getSampleData now r).articles) :
    ∃ s, a.sentiment_score = round3 s ∧ a.sentiment_label = labelOf s := by
  have hmem : a ∈ (dayLoop now 0 14 [] [] r).1 := by
    rw [← articlesRaw_def]
    exact mem_articlesRaw_of_mem_articles ha
  rcases dayLoop_mem_wf now 14 0 [] [] r a hmem with h | h
  · simp at h
  · exact h

/-! ## C1, C5: labels versus stored scores -/

/-- C1 (amended): for every Article of a produced Snapshot the label is the
0.2-deadband threshold applied to the pre-rounding sentiment value; hence the
claimed relation between `sentiment_label` and the stored (3-decimal rounded)
`sentiment_score` holds whenever the stored score is not exactly `±0.2`, and
at a stored score of exactly `0.2` (resp. `-0.2`) the label can only be
`Positive` or `Neutral` (resp. `Negative` or `Neutral`). -/
theorem c1_label_threshold (now : ℕ) (r : Tape) (a : Article)
    (ha : a ∈ (getSampleData now r).articles) :
    (1/5 < a.sentiment_score → a.sentiment_label = "Positive") ∧
    (a.sentiment_score < -(1/5) → a.sentiment_label = "Negative") ∧
    (-(1/5) < a.sentiment_score → a.sentiment_score < 1/5 →
      a.sentiment_label = "Neutral") ∧
    (a.sentiment_score = 1/5 →
      a.sentiment_label = "Positive" ∨ a.sentiment_label = "Neutral") ∧
    (a.sentiment_score = -(1/5) →
      a.sentiment_label = "Negative" ∨ a.sentiment_label = "Neutral") := by
  obtain ⟨s, hsc, hlb⟩ := articles_mem_wf ha
  rw [hlb]
  refine ⟨?_, ?_, ?_, ?_, ?_⟩
  · intro h; rw [hsc] at h; exact labelOf_pos (lt_of_round3_gt h)
  · intro h; rw [hsc] at h; exact labelOf_neg (lt_of_round3_lt h)
  · intro h1 h2
    rw [hsc] at h1 h2
    obtain ⟨g1, g2⟩ := between_of_round3_between h1 h2
    exact labelOf_neu (by linarith) (by linarith)
  · intro h
    rw [hsc] at h
    have hgt := gt_of_round3_eq_fifth h
    by_cases hp : 1/5 < s
    · exact Or.inl (labelOf_pos hp)
    · exact Or.inr (labelOf_neu hp (by linarith))
  · intro h
    rw [hsc] at h
    have hlt := lt_of_round3_eq_neg_fifth h
    by_cases hn : s < -(1/5)
    · exact Or.inl (labelOf_neg hn)
    · exact Or.inr (labelOf_neu (by linarith) hn)

/-- Witness for C1: on a concrete run the first article has a stored score
above `0.2` and the theorem yields the label `Positive`. -/
theorem c1_label_threshold_witness :
    ((getSampleData 9600 ztape).articles.getD 0 default).sentiment_label = "Positive" := by
  have hlen : 0 < (getSampleData 9600 ztape).articles.length := by
    with_unfolding_all decide
  have hmem : (getSampleData 9600 ztape).articles.getD 0 default ∈
      (getSampleData 9600 ztape).articles := by
    rw [List.getD_eq_getElem _ _ hlen]
    exact List.getElem_mem hlen
  refine (c1_label_threshold 9600 ztape _ hmem).1 ?_
  with_unfolding_all decide

/-- C1 counterexample: on a concrete run the first article of the Snapshot
has stored score exactly `0.2` (pre-rounding sentiment `0.2004`), which lies
in `[-0.2, 0.2]`, yet its label is not `Neutral`. -/
theorem c1_counterexample :
    0 < (getSampleData 9600 c1Tape).articles.length ∧
    -(1/5) ≤ ((getSampleData 9600 c1Tape).articles.getD 0 default).sentiment_score ∧
    ((getSampleData 9600 c1Tape).articles.getD 0 default).sentiment_score ≤ 1/5 ∧
    ((getSampleData 9600 c1Tape).articles.getD 0 default).sentiment_label ≠ "Neutral" :=
  ⟨by with_unfolding_all decide, by with_unfolding_all decide,
   by with_unfolding_all decide, by with_unfolding_all decide⟩

/-- C5 (amended): `sentiment_label` is a deterministic function of the stored
`sentiment_score` away from the rounding boundary: two Articles of a Snapshot
with equal stored scores not equal to `±0.2` carry equal labels. -/
theorem c5_label_deterministic (now : ℕ) (r : Tape) (a b : Article)
    (ha : a ∈ (getSampleData now r).articles) (hb : b ∈ (getSampleData now r).articles)
    (hab : a.sentiment_score = b.sentiment_score)
    (h1 : a.sentiment_score ≠ 1/5) (h2 : a.sentiment_score ≠ -(1/5)) :
    a.sentiment_label = b.sentiment_label := by
  obtain ⟨s, hsa, hla⟩ := articles_mem_wf ha
  obtain ⟨t, hsb, hlb⟩ := articles_mem_wf hb
  rw [hla, hlb]
  rcases lt_trichotomy (1/5 : ℚ) a.sentiment_score with hgt | heq | hlt
  · have hs : 1/5 < s := lt_of_round3_gt (by rw [← hsa]; exact hgt)
    have ht : 1/5 < t := lt_of_round3_gt (by rw [← hsb, ← hab]; exact hgt)
    rw [labelOf_pos hs, labelOf_pos ht]
  · exact absurd heq.symm h1
  · rcases lt_trichotomy a.sentiment_score (-(1/5)) with hn | he | hp
    · have hs : s < -(1/5) := lt_of_round3_lt (by rw [← hsa]; exact hn)
      have ht : t < -(1/5) := lt_of_round3_lt (by rw [← hsb, ← hab]; exact hn)
      rw [labelOf_neg hs, labelOf_neg ht]
    · exact absurd he h2
    · have hs := between_of_round3_between (by rw [← hsa]; exact hp) (by rw [← hsa]; exact hlt)
      have ht := between_of_round3_between (by rw [← hsb, ← hab]; exact hp)
        (by rw [← hsb, ← hab]; exact hlt)
      rw [labelOf_neu (by linarith [hs.2]) (by linarith [hs.1]),
        labelOf_neu (by linarith [ht.2]) (by linarith [ht.1])]

/-- Witness for C5: two concrete articles with equal stored score `0.6` get
equal labels by the theorem. -/
theorem c5_label_deterministic_witness :
    ((getSampleData 9600 ztape).articles.getD 0 default).sentiment_label =
      ((getSampleData 9600 ztape).articles.getD 1 default).sentiment_label := by
  have hlen : 1 < (getSampleData 9600 ztape).articles.length := by
    with_unfolding_all decide
  have h0 : (0 : ℕ) < (getSampleData 9600 ztape).articles.length := by omega
  have hm0 : (getSampleData 9600 ztape).articles.getD 0 default ∈
      (getSampleData 9600 ztape).articles := by
    rw [List.getD_eq_getElem _ _ h0]
    exact List.getElem_mem h0
  have hm1 : (getSampleData 9600 ztape).articles.getD 1 default ∈
      (getSampleData 9600 ztape).articles := by
    rw [List.getD_eq_getElem _ _ hlen]
    exact List.getElem_mem hlen
  exact c5_label_deterministic 9600 ztape _ _ hm0 hm1
    (by with_unfolding_all decide) (by with_unfolding_all decide)
    (by with_unfolding_all decide)

/-- C5 counterexample: on a concrete run the first two articles of the
Snapshot have equal stored scores (both exactly `0.2`) but different labels
(`Positive` from pre-rounding sentiment `0.2004`, `Neutral` from exactly
`0.2`). -/
theorem c5_counterexample :
    1 < (getSampleData 9600 c5Tape).articles.length ∧
    ((getSampleData 9600 c5Tape).articles.getD 0 default).sentiment_score =
      ((getSampleData 9600 c5Tape).articles.getD 1 default).sentiment_score ∧
    ((getSampleData 9600 c5Tape).articles.getD 0 default).sentiment_label ≠
      ((getSampleData 9600 c5Tape).articles.getD 1 default).sentiment_label :=
  ⟨by with_unfolding_all decide, by with_unfolding_all decide,
   by with_unfolding_all decide⟩

/-! ## C4: the overall summary -/

/-- C4: `overall_sentiment` equals the mean of `sentiment_score` over the
articles sequence rounded to 3 decimals, and `overall_label` is the
0.2-deadband threshold applied to the (unrounded) overall mean. -/
theorem c4_overall (now : ℕ) (r : Tape) :
    (getSampleData now r).overall_sentiment =
      round3 (((getSampleData now r).articles.map Article.sentiment_score).sum /
        ((getSampleData now r).articles.length : ℚ)) ∧
    (getSampleData now r).overall_label =
      labelOf (((getSampleData now r).articles.map Article.sentiment_score).sum /
        ((getSampleData now r).articles.length : ℚ)) := by
  have hperm := sortDesc_perm (fun a : Article => (a.published : ℤ)) (articlesRaw now r)
  have hsum : ((getSampleData now r).articles.map Article.sentiment_score).sum =
      ((articlesRaw now r).map Article.sentiment_score).sum := by
    rw [getSampleData_articles]
    exact (hperm.map Article.sentiment_score).sum_eq
  have hlen : (getSampleData now r).articles.length = (articlesRaw now r).length := by
    rw [getSampleData_articles]
    exact hperm.length_eq
  rw [hsum, hlen, getSampleData_overall, getSampleData_overall_label]
  unfold meanScore
  exact ⟨rfl, rfl⟩

/-! ## The moving-average pass and the date sequence -/

theorem map_getD_range {α β : Type} (g : α → β) (d : α) :
    ∀ (l : List α), (List.range l.length).map (fun i => g (l.getD i d)) = l.map g
  | [] => rfl
  | x :: xs => by
    rw [List.length_cons, List.range_succ_eq_map, List.map_cons, List.map_map]
    rw [List.map_cons]
    congr 1
    exact map_getD_range g d xs

theorem addMovingAvg_length (l : List DailyStat) : (addMovingAvg l).length = l.length := by
  unfold addMovingAvg
  rw [List.length_map, List.length_range]

theorem addMovingAvg_getD (l : List DailyStat) (i : ℕ) (h : i < l.length) :
    (addMovingAvg l).getD i default =
      { l.getD i default with
        moving_avg := round3
          (((((l.drop (i - 6)).take (i + 1 - (i - 6))).map DailyStat.avg_sentiment).sum) /
            ((((l.drop (i - 6)).take (i + 1 - (i - 6))).length : ℕ) : ℚ)) } := by
  unfold addMovingAvg
  rw [List.getD_eq_getElem _ _ (by rw [List.length_map, List.length_range]; exact h)]
  rw [List.getElem_map]
  simp [List.getElem_range]

theorem addMovingAvg_map_avg (l : List DailyStat) :
    (addMovingAvg l).map DailyStat.avg_sentiment = l.map DailyStat.avg_sentiment := by
  unfold addMovingAvg
  rw [List.map_map]
  exact map_getD_range DailyStat.avg_sentiment default l

theorem addMovingAvg_map_date (l : List DailyStat) :
    (addMovingAvg l).map DailyStat.date = l.map DailyStat.date := by
  unfold addMovingAvg
  rw [List.map_map]
  exact map_getD_range DailyStat.date default l

theorem dayLoop_dates (now : ℕ) :
    ∀ (fuel day : ℕ) (arts : List Article) (stats : List DailyStat) (r : Tape),
      ((dayLoop now day fuel arts stats r).2).map DailyStat.date =
        stats.map DailyStat.date ++ (List.range fuel).map (fun k => dateOf now (day + k))
  | 0, day, arts, stats, r => by simp [dayLoop]
  | fuel + 1, day, arts, stats, r => by
    simp only [dayLoop]
    rw [dayLoop_dates now fuel (day + 1) _ _ _]
    rw [List.range_succ_eq_map, List.map_cons, List.map_map, List.map_append,
      List.append_assoc]
    congr 1
    rw [List.map_singleton, List.singleton_append]
    congr 1
    apply List.map_congr_left
    intro a _
    show dateOf now (day + 1 + a) = dateOf now (day + Nat.succ a)
    congr 1
    omega

theorem daily_dates (now : ℕ) (r : Tape) :
    (dailyRaw now r).map DailyStat.date = (List.range 14).map (fun k => dateOf now k) := by
  rw [dailyRaw_def, dayLoop_dates now 14 0 [] [] r]
  simp

/-! ## C9: ordering of articles and daily stats -/

/-- C9: in every produced Snapshot the articles sequence is sorted by
`published` descending and the daily-stat sequence is sorted by date
ascending. -/
theorem c9_ordering (now : ℕ) (r : Tape) :
    ((getSampleData now r).articles.Pairwise fun a b => b.published ≤ a.published) ∧
    ((getSampleData now r).daily_stats.Pairwise fun a b => a.date ≤ b.date) := by
  constructor
  · rw [getSampleData_articles]
    have h := sortDesc_sorted (fun a : Article => (a.published : ℤ)) (articlesRaw now r)
    exact h.imp (fun hab => by exact_mod_cast hab)
  · rw [getSampleData_daily]
    have hmap : (addMovingAvg (dailyRaw now r).reverse).map DailyStat.date =
        ((List.range 14).map (fun k => dateOf now k)).reverse := by
      rw [addMovingAvg_map_date, List.map_reverse, daily_dates]
    have hpair : (((List.range 14).map (fun k => dateOf now k)).reverse).Pairwise
        (fun a b => a ≤ b) := by
      rw [List.pairwise_reverse, List.pairwise_map]
      refine (List.pairwise_lt_range 14).imp ?_
      intro i j hij
      unfold dateOf
      exact Nat.div_le_div_right (Nat.sub_le_sub_left (by omega) now)
    rw [← hmap] at hpair
    exact List.pairwise_map.mp hpair

/-! ## C2: the moving average -/

/-- C2 (amended): for every index `i` of `daily_stats`, `moving_avg[i]` equals
the arithmetic mean of `avg_sentiment` over the entries at indices
`max(0, i-6) .. i` inclusive, rounded to 3 decimals (the code stores
`parseFloat(avg.toFixed(3))`; the window itself widens at the start exactly
as claimed). -/
theorem c2_moving_avg (now : ℕ) (r : Tape) (i : ℕ)
    (hi : i < (getSampleData now r).daily_stats.length) :
    ((getSampleData now r).daily_stats.getD i default).moving_avg =
      round3
        (((((getSampleData now r).daily_stats.map DailyStat.avg_sentiment).drop (i - 6)).take
            (i + 1 - (i - 6))).sum /
          (((((getSampleData now r).daily_stats.map DailyStat.avg_sentiment).drop (i - 6)).take
            (i + 1 - (i - 6))).length : ℚ)) := by
  rw [getSampleData_daily] at hi ⊢
  have hlen : i < ((dailyRaw now r).reverse).length := by
    rw [← addMovingAvg_length]
    exact hi
  rw [addMovingAvg_getD _ i hlen]
  have hdrop : ∀ (l : List DailyStat) (k : ℕ),
      (l.map DailyStat.avg_sentiment).drop k = (l.drop k).map DailyStat.avg_sentiment := by
    intro l k
    rw [List.map_drop]
  have htake : ∀ (l : List DailyStat) (k j : ℕ),
      ((l.drop k).map DailyStat.avg_sentiment).take j =
        ((l.drop k).take j).map DailyStat.avg_sentiment := by
    intro l k j
    rw [List.map_take]
  rw [addMovingAvg_map_avg, hdrop, htake]
  rw [List.length_map]

/-- Witness for C2: at index 0 of a concrete run the window is the single
first entry and the theorem evaluates. -/
theorem c2_moving_avg_witness :
    ((getSampleData 9600 ztape).daily_stats.getD 0 default).moving_avg =
      round3
        (((((getSampleData 9600 ztape).daily_stats.map DailyStat.avg_sentiment).drop (0 - 6)).take
            (0 + 1 - (0 - 6))).sum /
          (((((getSampleData 9600 ztape).daily_stats.map DailyStat.avg_sentiment).drop
            (0 - 6)).take (0 + 1 - (0 - 6))).length : ℚ)) :=
  c2_moving_avg 9600 ztape 0 (by with_unfolding_all decide)

/-- C2 counterexample: on a concrete run, `daily_stats[1]` has
`avg_sentiment` values `0.6` and `0.601` in its window, whose exact mean is
`0.6005`, but the stored `moving_avg` is the rounded `0.601`. -/
theorem c2_counterexample :
    1 < (getSampleData 9600 c2Tape).daily_stats.length ∧
    ((getSampleData 9600 c2Tape).daily_stats.getD 1 default).moving_avg ≠
      (((getSampleData 9600 c2Tape).daily_stats.getD 0 default).avg_sentiment +
        ((getSampleData 9600 c2Tape).daily_stats.getD 1 default).avg_sentiment) / 2 :=
  ⟨by with_unfolding_all decide, by with_unfolding_all decide⟩

/-! ## C6: ordering of source stats -/

/-- C6 (amended): `source_stats` is ordered by `article_count` descending,
but ties are left in first-appearance order (the ECMAScript sort is stable
and the comparator only compares counts): entries with a given
`article_count` appear exactly in the order of the unsorted per-source list
built in article order, not sorted by source name. -/
theorem c6_source_order (now : ℕ) (r : Tape) :
    ((getSampleData now r).source_stats.Pairwise fun a b =>
      b.article_count ≤ a.article_count) ∧
    ∀ c : ℕ, (getSampleData now r).source_stats.filter
        (fun s => decide ((s.article_count : ℤ) = (c : ℤ))) =
      (sourceStatsRaw (articlesRaw now r)).filter
        (fun s => decide ((s.article_count : ℤ) = (c : ℤ))) := by
  constructor
  · rw [getSampleData_sources]
    have h := sortDesc_sorted (fun s : SourceStat => (s.article_count : ℤ))
      (sourceStatsRaw (articlesRaw now r))
    exact h.imp (fun hab => by exact_mod_cast hab)
  · intro c
    rw [getSampleData_sources]
    exact sortDesc_filter (fun s : SourceStat => (s.article_count : ℤ)) (c : ℤ)
      (sourceStatsRaw (articlesRaw now r))

/-- C6 counterexample: on a concrete run, `source_stats[1]` is `The Verge`
and `source_stats[2]` is `Bloomberg`, both with `article_count = 1`: a tie
ordered by first appearance, not by source name ascending
(`Bloomberg < The Verge`). -/
theorem c6_counterexample :
    2 < (getSampleData 9600 c6Tape).source_stats.length ∧
    ((getSampleData 9600 c6Tape).source_stats.getD 1 default).article_count =
      ((getSampleData 9600 c6Tape).source_stats.getD 2 default).article_count ∧
    ((getSampleData 9600 c6Tape).source_stats.getD 1 default).source = "The Verge" ∧
    ((getSampleData 9600 c6Tape).source_stats.getD 2 default).source = "Bloomberg" ∧
    strLt "Bloomberg" "The Verge" = true :=
  ⟨by with_unfolding_all decide, by with_unfolding_all decide,
   by with_unfolding_all decide, by with_unfolding_all decide,
   by with_unfolding_all decide⟩

/-! ## C10: the hook fallback -/

/-- C10: once loading is false the hook's data is never null: a failed fetch
stores the error message and the generated sample dataset; a successful
fetch stores the parsed snapshot and no error. -/
theorem c10_hook_fallback (now : ℕ) (r : Tape) (f : Except String Snapshot)
    (e : String) (d : Snapshot) :
    (useSentimentData f now r).loading = false ∧
    (useSentimentData f now r).data.isSome = true ∧
    useSentimentData (Except.error e) now r =
      { data := some (getSampleData now r), loading := false, error := some e } ∧
    useSentimentData (Except.ok d) now r =
      { data := some d, loading := false, error := none } := by
  refine ⟨?_, ?_, rfl, rfl⟩ <;> cases f <;> rfl

/-! ## C7: deduplication (modelled from the spec) -/

theorem dedupGo_not_seen :
    ∀ (l : List RawItem) (ks : List (String × String)) (ls : List String) (a : RawItem),
      a ∈ dedupGo l ks ls → dedupKey a ∉ ks ∧ a.link ∉ ls
  | [], _, _, _, ha => by simp [dedupGo] at ha
  | it :: rest, ks, ls, a, ha => by
    by_cases h : dedupKey it ∈ ks ∨ it.link ∈ ls
    · rw [dedupGo, if_pos h] at ha
      exact dedupGo_not_seen rest ks ls a ha
    · rw [dedupGo, if_neg h] at ha
      rcases List.mem_cons.mp ha with rfl | ha
      · exact ⟨fun hk => h (Or.inl hk), fun hl => h (Or.inr hl)⟩
      · have := dedupGo_not_seen rest (dedupKey it :: ks) (it.link :: ls) a ha
        exact ⟨fun hk => this.1 (List.mem_cons_of_mem _ hk),
          fun hl => this.2 (List.mem_cons_of_mem _ hl)⟩

theorem dedupGo_pairwise :
    ∀ (l : List RawItem) (ks : List (String × String)) (ls : List String),
      (dedupGo l ks ls).Pairwise fun a b => dedupKey a ≠ dedupKey b ∧ a.link ≠ b.link
  | [], _, _ => by simp [dedupGo]
  | it :: rest, ks, ls => by
    by_cases h : dedupKey it ∈ ks ∨ it.link ∈ ls
    · rw [dedupGo, if_pos h]
      exact dedupGo_pairwise rest ks ls
    · rw [dedupGo, if_neg h]
      refine List.pairwise_cons.mpr ⟨?_, dedupGo_pairwise rest _ _⟩
      intro b hb
      have hb2 := dedupGo_not_seen rest (dedupKey it :: ks) (it.link :: ls) b hb
      constructor
      · intro he
        exact hb2.1 (by rw [← he]; exact List.mem_cons_self _ _)
      · intro he
        exact hb2.2 (by rw [← he]; exact List.mem_cons_self _ _)

theorem filter_length_le_one_of_pairwise {α : Type} {p : α → Bool} :
    ∀ {l : List α}, (l.Pairwise fun a b => ¬(p a = true ∧ p b = true)) →
      (l.filter p).length ≤ 1
  | [], _ => by simp
  | x :: l, h => by
    rcases List.pairwise_cons.mp h with ⟨hx, hl⟩
    rw [List.filter_cons]
    by_cases hp : p x = true
    · rw [if_pos hp]
      have : l.filter p = [] := by
        rw [List.filter_eq_nil_iff]
        intro a ha hpa
        exact hx a ha ⟨hp, hpa⟩
      rw [this]
      simp
    · rw [if_neg hp]
      exact filter_length_le_one_of_pairwise hl

/-- C7: after deduplication, at most one surviving item carries any given
`(normalized_headline, source)` key, and at most one carries any given link;
so of two raw items agreeing on the key (with different links) or on the
link (with differently-cased/spaced headlines), at most one Article
survives. -/
theorem c7_dedup_unique (items : List RawItem) (k : String × String) (lnk : String) :
    ((dedupItems items).filter fun x => decide (dedupKey x = k)).length ≤ 1 ∧
    ((dedupItems items).filter fun x => decide (x.link = lnk)).length ≤ 1 := by
  have hp := dedupGo_pairwise items [] []
  constructor
  · refine filter_length_le_one_of_pairwise (hp.imp ?_)
    intro a b hab hcon
    rcases hcon with ⟨h1, h2⟩
    rw [decide_eq_true_eq] at h1 h2
    exact hab.1 (by rw [h1, h2])
  · refine filter_length_le_one_of_pairwise (hp.imp ?_)
    intro a b hab hcon
    rcases hcon with ⟨h1, h2⟩
    rw [decide_eq_true_eq] at h1 h2
    exact hab.2 (by rw [h1, h2])

/-! ## C8: two-run reproducibility (modelled from the spec) -/

/-- C8 (amended): the pipeline is a pure function of the raw fetch result,
the classifier and the clock; two runs over identical raw items and
classifier outputs whose retention filters select the same items produce
Snapshots that are identical in every field except `last_updated`.  Without
that condition an item near the 14-day horizon can be retained by the
earlier run and dropped by the later one (see the counterexample). -/
theorem c8_determinism (now1 now2 : ℕ) (raw : List RawItem)
    (classify : String → Option ClassifierOut)
    (h : retentionFilter now1 (dedupItems raw) = retentionFilter now2 (dedupItems raw)) :
    runsAgree (runPipeline now1 raw classify) (runPipeline now2 raw classify) := by
  unfold runsAgree runPipeline
  rw [h]
  by_cases he : (classifyAll classify (retentionFilter now2 (dedupItems raw))).isEmpty
  · rw [if_pos he, if_pos he]
  · rw [if_neg he, if_neg he]
    rfl

/-- Witness for C8: two runs one hour apart whose retention filters agree
(both drop the older item) yield snapshots equal in all fields but
`last_updated`. -/
theorem c8_determinism_witness :
    runsAgree (runPipeline 1300 c8Raw c8Classify) (runPipeline 1301 c8Raw c8Classify) :=
  c8_determinism 1300 1301 c8Raw c8Classify (by with_unfolding_all decide)

/-- C8 counterexample: runs at hours 1236 and 1237 over identical raw items
and classifier outputs retain 2 versus 1 articles (the item published at
hour 900 sits exactly at the 14-day horizon of the first run), so the two
Snapshots differ beyond `last_updated`. -/
theorem c8_counterexample :
    ¬ runsAgree (runPipeline 1236 c8Raw c8Classify) (runPipeline 1237 c8Raw c8Classify) := by
  with_unfolding_all decide

/-! ## C3: the per-day invariant -/

theorem validTape_shift {r : Tape} (h : validTape r) (k : ℕ) : validTape (shift r k) :=
  fun n => h (n + k)

theorem randIndex_le {q : ℚ} (h0 : 0 ≤ q) (h1 : q < 1) {n : ℕ} (hn : 0 < n) :
    randIndex q n ≤ n - 1 := by
  unfold randIndex
  have hqn : q * n < n := by
    have hnq : (0 : ℚ) < n := by exact_mod_cast hn
    nlinarith
  have hf : Int.floor (q * n) < (n : ℤ) := by
    rw [Int.floor_lt]
    push_cast
    exact hqn
  have hnn : (0 : ℤ) ≤ Int.floor (q * n) := Int.floor_nonneg.mpr (by positivity)
  omega

theorem filter_trichotomy_length :
    ∀ (l : List Article),
      (l.filter fun a => decide (1/5 < a.sentiment_score)).length +
        (l.filter fun a => decide (a.sentiment_score < -(1/5))).length +
        (l.filter fun a => decide (|a.sentiment_score| ≤ 1/5)).length = l.length
  | [] => rfl
  | x :: l => by
    have ih := filter_trichotomy_length l
    rw [List.filter_cons, List.filter_cons, List.filter_cons]
    by_cases h1 : 1/5 < x.sentiment_score
    · have h2 : ¬ x.sentiment_score < -(1/5) := by linarith
      have h3 : ¬ |x.sentiment_score| ≤ 1/5 := fun hc =>
        absurd (abs_le.mp hc).2 (not_le.mpr h1)
      rw [if_pos (by simpa using h1), if_neg (by simpa using h2), if_neg (by simpa using h3)]
      simp only [List.length_cons]
      omega
    · by_cases h2 : x.sentiment_score < -(1/5)
      · have h3 : ¬ |x.sentiment_score| ≤ 1/5 := fun hc => by
          have := (abs_le.mp hc).1
          linarith
        rw [if_neg (by simpa using h1), if_pos (by simpa using h2), if_neg (by simpa using h3)]
        simp only [List.length_cons]
        omega
      · have h3 : |x.sentiment_score| ≤ 1/5 := abs_le.mpr ⟨by linarith, by linarith⟩
        rw [if_neg (by simpa using h1), if_neg (by simpa using h2), if_pos (by simpa using h3)]
        simp only [List.length_cons]
        omega

theorem meanScore_perm {l1 l2 : List Article} (h : l1.Perm l2) : meanScore l1 = meanScore l2 := by
  unfold meanScore
  rw [(h.map Article.sentiment_score).sum_eq, h.length_eq]

theorem dayLoop_decomp (now : ℕ) (hnow : 24 * 14 ≤ now) (h7 : 7 ≤ now % 24) :
    ∀ (fuel day : ℕ) (arts : List Article) (stats : List DailyStat) (r : Tape),
      validTape r → day + fuel ≤ 14 →
      ∃ rest, (dayLoop now day fuel arts stats r).1 = arts ++ rest ∧
        ∀ a ∈ rest, ∃ d, day ≤ d ∧ d ≤ 13 ∧ pubDay a + d = now / 24
  | 0, day, arts, stats, r, hv, hle => ⟨[], by simp [dayLoop], by simp⟩
  | fuel + 1, day, arts, stats, r, hv, hle => by
    simp only [dayLoop]
    obtain ⟨rest, he, hrest⟩ := dayLoop_decomp now hnow h7 fuel (day + 1)
      (arts ++ (genBatch now day 0 (4 + randIndex (r 0) 5) (shift r 1)).1)
      (stats ++ [mkStat now day
        (arts ++ (genBatch now day 0 (4 + randIndex (r 0) 5) (shift r 1)).1)
        (genBatch now day 0 (4 + randIndex (r 0) 5) (shift r 1)).2
        (4 + randIndex (r 0) 5)])
      (shift r (1 + 4 * (4 + randIndex (r 0) 5)))
      (validTape_shift hv _) (by omega)
    refine ⟨(genBatch now day 0 (4 + randIndex (r 0) 5) (shift r 1)).1 ++ rest, ?_, ?_⟩
    · rw [he, List.append_assoc]
    · intro a ha
      rcases List.mem_append.mp ha with ha | ha
      · obtain ⟨j, s, hj1, hj2, hpub, _, _⟩ :=
          genBatch_mem now day (4 + randIndex (r 0) 5) 0 (shift r 1) a ha
        have hn5 : randIndex (r 0) 5 ≤ 4 := randIndex_le (hv 0).1 (hv 0).2 (by norm_num)
        refine ⟨day, le_refl day, by omega, ?_⟩
        rw [pubDay, hpub]
        omega
      · obtain ⟨d, hd1, hd2, hd3⟩ := hrest a ha
        exact ⟨d, by omega, hd2, hd3⟩

theorem filter_date_append {arts batch : List Article} {d : ℕ} (p : Article → Prop)
    [DecidablePred p]
    (hartne : ∀ a ∈ arts, pubDay a ≠ d)
    (hbdate : ∀ a ∈ batch, pubDay a = d) :
    (arts ++ batch).filter (fun a => decide (pubDay a = d ∧ p a)) =
      batch.filter (fun a => decide (p a)) := by
  rw [List.filter_append]
  have h1 : arts.filter (fun a => decide (pubDay a = d ∧ p a)) = [] := by
    rw [List.filter_eq_nil_iff]
    intro a ha
    simp only [decide_eq_true_eq]
    intro hc
    exact hartne a ha hc.1
  rw [h1, List.nil_append]
  apply List.filter_congr
  intro a ha
  have hd := hbdate a ha
  simp [hd]

theorem filter_date_eq_batch {arts batch rest : List Article} {d : ℕ}
    (hartne : ∀ a ∈ arts, pubDay a ≠ d)
    (hbdate : ∀ a ∈ batch, pubDay a = d)
    (hrestne : ∀ a ∈ rest, pubDay a ≠ d) :
    ((arts ++ batch) ++ rest).filter (fun a => decide (pubDay a = d)) = batch := by
  rw [List.filter_append, List.filter_append]
  have h1 : arts.filter (fun a => decide (pubDay a = d)) = [] := by
    rw [List.filter_eq_nil_iff]
    intro a ha
    simpa using hartne a ha
  have h2 : rest.filter (fun a => decide (pubDay a = d)) = [] := by
    rw [List.filter_eq_nil_iff]
    intro a ha
    simpa using hrestne a ha
  have h3 : batch.filter (fun a => decide (pubDay a = d)) = batch := by
    rw [List.filter_eq_self]
    intro a ha
    simpa using hbdate a ha
  rw [h1, h2, h3, List.nil_append, List.append_nil]

theorem mkStat_counts {now day : ℕ} {arts batch : List Article} {total : ℚ} {n : ℕ}
    (hartne : ∀ a ∈ arts, pubDay a ≠ dateOf now day)
    (hbdate : ∀ a ∈ batch, pubDay a = dateOf now day)
    (hblen : batch.length = n) :
    (mkStat now day (arts ++ batch) total n).positive_count +
      (mkStat now day (arts ++ batch) total n).negative_count +
      (mkStat now day (arts ++ batch) total n).neutral_count =
      (mkStat now day (arts ++ batch) total n).article_count := by
  simp only [mkStat]
  rw [filter_date_append (fun a => 1/5 < a.sentiment_score) hartne hbdate,
    filter_date_append (fun a => a.sentiment_score < -(1/5)) hartne hbdate,
    filter_date_append (fun a => |a.sentiment_score| ≤ 1/5) hartne hbdate]
  rw [← hblen]
  exact filter_trichotomy_length batch

theorem mkStat_avg_close {total : ℚ} {batch : List Article} {n : ℕ}
    (hn : 0 < n) (hblen : batch.length = n)
    (hsum : |(batch.map Article.sentiment_score).sum - total| ≤ n * (1/2000)) :
    |round3 (total / n) - meanScore batch| ≤ 1/1000 := by
  have hnq : (0 : ℚ) < n := by exact_mod_cast hn
  have h1 := abs_round3_sub (total / n)
  have h2 : |total / n - meanScore batch| ≤ 1/2000 := by
    unfold meanScore
    rw [hblen, div_sub_div_same, abs_div, abs_of_pos hnq, div_le_iff₀ hnq]
    have := abs_sub_comm (total : ℚ) ((batch.map Article.sentiment_score).sum)
    rw [this]
    linarith
  calc |round3 (total / n) - meanScore batch|
      ≤ |round3 (total / n) - total / n| + |total / n - meanScore batch| :=
        abs_sub_le _ _ _
    _ ≤ 1/2000 + 1/2000 := by linarith
    _ = 1/1000 := by norm_num

theorem dayLoop_stats_good (now : ℕ) (hnow : 24 * 14 ≤ now) (h7 : 7 ≤ now % 24) :
    ∀ (fuel day : ℕ) (arts : List Article) (stats : List DailyStat) (r : Tape),
      validTape r → day + fuel ≤ 14 →
      (∀ a ∈ arts, now / 24 < pubDay a + day) →
      ∀ s ∈ (dayLoop now day fuel arts stats r).2,
        s ∈ stats ∨
          (s.positive_count + s.negative_count + s.neutral_count = s.article_count ∧
            |s.avg_sentiment -
              meanScore ((dayLoop now day fuel arts stats r).1.filter
                fun a => decide (pubDay a = s.date))| ≤ 1/1000)
  | 0, day, arts, stats, r, _, _, _, s, hs => Or.inl hs
  | fuel + 1, day, arts, stats, r, hv, hle, hart, s, hs => by
    simp only [dayLoop] at hs ⊢
    set n : ℕ := 4 + randIndex (r 0) 5 with hn
    set b := genBatch now day 0 n (shift r 1) with hb
    have hn5 : randIndex (r 0) 5 ≤ 4 := randIndex_le (hv 0).1 (hv 0).2 (by norm_num)
    have hn8 : n ≤ 8 := by omega
    have hn4 : 4 ≤ n := by omega
    have hday : day ≤ 13 := by omega
    have hdate : dateOf now day + day = now / 24 := by
      unfold dateOf
      omega
    have hblen : b.1.length = n := genBatch_length now day n 0 (shift r 1)
    have hbdate : ∀ a ∈ b.1, pubDay a = dateOf now day := by
      intro a ha
      obtain ⟨j, s', hj1, hj2, hpub, _, _⟩ := genBatch_mem now day n 0 (shift r 1) a ha
      rw [pubDay, hpub]
      unfold dateOf
      omega
    have hartne : ∀ a ∈ arts, pubDay a ≠ dateOf now day := by
      intro a ha he
      have := hart a ha
      omega
    have harts2 : ∀ a ∈ arts ++ b.1, now / 24 < pubDay a + (day + 1) := by
      intro a ha
      rcases List.mem_append.mp ha with ha | ha
      · have := hart a ha
        omega
      · have h1 := hbdate a ha
        omega
    rcases dayLoop_stats_good now hnow h7 fuel (day + 1) (arts ++ b.1)
        (stats ++ [mkStat now day (arts ++ b.1) b.2 n]) (shift r (1 + 4 * n))
        (validTape_shift hv _) (by omega) harts2 s hs with hmem | hgood
    · rcases List.mem_append.mp hmem with hmem | hmem
      · exact Or.inl hmem
      · rw [List.mem_singleton] at hmem
        subst hmem
        refine Or.inr ⟨mkStat_counts hartne hbdate hblen, ?_⟩
        have hproj1 : (mkStat now day (arts ++ b.1) b.2 n).avg_sentiment =
            round3 (b.2 / n) := rfl
        have hproj2 : (mkStat now day (arts ++ b.1) b.2 n).date = dateOf now day := rfl
        rw [hproj1, hproj2]
        obtain ⟨rest, he, hrest⟩ := dayLoop_decomp now hnow h7 fuel (day + 1)
          (arts ++ b.1) (stats ++ [mkStat now day (arts ++ b.1) b.2 n])
          (shift r (1 + 4 * n)) (validTape_shift hv _) (by omega)
        rw [he]
        have hrestne : ∀ a ∈ rest, pubDay a ≠ dateOf now day := by
          intro a ha he2
          obtain ⟨d, hd1, hd2, hd3⟩ := hrest a ha
          omega
        rw [filter_date_eq_batch hartne hbdate hrestne]
        exact mkStat_avg_close (by omega) hblen (genBatch_sum now day n 0 (shift r 1))
    · exact Or.inr hgood

set_option maxHeartbeats 2000000 in
/-- C3 (amended): for runs whose UTC hour-of-day is at least 7 (so that no
generated article's published time crosses a UTC midnight), every DailyStat
satisfies `positive_count + negative_count + neutral_count = article_count`,
and `avg_sentiment` differs from the arithmetic mean of the stored
`sentiment_score` values of that date's articles by at most `0.001`
(`avg_sentiment` is the 3-decimal rounding of the mean of the pre-rounding
sentiments). -/
theorem c3_daily_invariant (now : ℕ) (r : Tape) (hv : validTape r)
    (hnow : 24 * 14 ≤ now) (h7 : 7 ≤ now % 24) (s : DailyStat)
    (hs : s ∈ (getSampleData now r).daily_stats) :
    s.positive_count + s.negative_count + s.neutral_count = s.article_count ∧
    |s.avg_sentiment -
      meanScore ((getSampleData now r).articles.filter
        fun a => decide (pubDay a = s.date))| ≤ 1/1000 := by
  rw [getSampleData_daily] at hs
  unfold addMovingAvg at hs
  rw [List.mem_map] at hs
  obtain ⟨i, hi, rfl⟩ := hs
  rw [List.mem_range] at hi
  set base := ((dailyRaw now r).reverse).getD i default with hbasedef
  have hbase : base ∈ (dailyRaw now r).reverse := by
    rw [hbasedef, List.getD_eq_getElem _ _ hi]
    exact List.getElem_mem hi
  rw [List.mem_reverse] at hbase
  have hbase2 : base ∈ (dayLoop now 0 14 [] [] r).2 := by
    rw [← dailyRaw_def]
    exact hbase
  have hgood := dayLoop_stats_good now hnow h7 14 0 [] [] r hv (by omega)
    (by intro a ha; simp at ha) base hbase2
  rcases hgood with habs | hgood
  · simp at habs
  constructor
  · exact hgood.1
  · show |base.avg_sentiment -
      meanScore ((getSampleData now r).articles.filter
        fun a => decide (pubDay a = base.date))| ≤ 1/1000
    have hperm := (sortDesc_perm (fun a : Article => (a.published : ℤ))
      (articlesRaw now r)).filter
      (fun a => decide (pubDay a = base.date))
    rw [getSampleData_articles, meanScore_perm hperm, articlesRaw_def]
    exact hgood.2

/-- Witness for C3: a concrete run at UTC hour 7 where the newest day's
counts sum to its article count and the average is within a thousandth of
the day's stored-score mean. -/
theorem c3_daily_invariant_witness :
    ((getSampleData 9607 ztape).daily_stats.getD 13 default).positive_count +
      ((getSampleData 9607 ztape).daily_stats.getD 13 default).negative_count +
      ((getSampleData 9607 ztape).daily_stats.getD 13 default).neutral_count =
      ((getSampleData 9607 ztape).daily_stats.getD 13 default).article_count ∧
    |((getSampleData 9607 ztape).daily_stats.getD 13 default).avg_sentiment -
      meanScore ((getSampleData 9607 ztape).articles.filter
        fun a => decide (pubDay a =
          ((getSampleData 9607 ztape).daily_stats.getD 13 default).date))| ≤ 1/1000 := by
  have hlen : 13 < (getSampleData 9607 ztape).daily_stats.length := by
    with_unfolding_all decide
  have hmem : (getSampleData 9607 ztape).daily_stats.getD 13 default ∈
      (getSampleData 9607 ztape).daily_stats := by
    rw [List.getD_eq_getElem _ _ hlen]
    exact List.getElem_mem hlen
  exact c3_daily_invariant 9607 ztape
    (fun n => ⟨le_refl 0, by show (0 : ℚ) < 1; norm_num⟩)
    (by norm_num) (by norm_num) _ hmem

/-- C3 counterexample: at a run time at UTC hour 0 the newest day's articles
are published at hours `now, now-1, now-2, now-3`, of which only the first
falls on the day's own date string, so the three label counts sum to 1 while
`article_count` is 4. -/
theorem c3_counterexample :
    13 < (getSampleData 9600 ztape).daily_stats.length ∧
    ((getSampleData 9600 ztape).daily_stats.getD 13 default).positive_count +
      ((getSampleData 9600 ztape).daily_stats.getD 13 default).negative_count +
      ((getSampleData 9600 ztape).daily_stats.getD 13 default).neutral_count ≠
      ((getSampleData 9600 ztape).daily_stats.getD 13 default).article_count :=
  ⟨by with_unfolding_all decide, by with_unfolding_all decide⟩
